import Mathlib

/-!
Shallow embedding of the paper-trading ledger of
`stock_predictor_backend/trading` (`models.py`, `serializers.py`,
`services.py`).

Modelling conventions:
* `Decimal` money values are embedded as `ℚ` (exact arithmetic); share
  quantities (Django `IntegerField`) as `ℤ`.
* The ledger is scoped to a single portfolio (all the claims are
  per-portfolio); `LedgerState` carries its cash balance together with the
  positions, transactions and orders owned by it.  Every `.save()` in the
  source becomes an update of this state, applied sequentially.
* The price oracle (`get_current_price`, a network call in the source) is an
  explicit argument: `Option ℚ` for a single lookup, `String → Option ℚ`
  for the sweep that quotes many tickers.  The source's `if not
  current_price:` treats both `None` and `Decimal(0)` as "no quote", and so
  does the embedding.
* Timestamps are integers; `timezone.now()` is an explicit `now` argument.
-/

namespace PsyStock

/-- Transaction status (`Transaction.PENDING/EXECUTED/CANCELLED/FAILED`). -/
inductive TxStatus where
  | pending
  | executed
  | cancelled
  | failed
deriving DecidableEq, Repr

/-- Order status (`Order.OPEN/FILLED/CANCELLED/EXPIRED`). -/
inductive OrdStatus where
  | open
  | filled
  | cancelled
  | expired
deriving DecidableEq, Repr

/-- `Position` model: one holding of one ticker (`models.Position`). -/
structure Position where
  ticker : String
  quantity : ℤ
  average_buy_price : ℚ
  current_price : ℚ
deriving DecidableEq, Repr

/-- `Transaction` model (audit record of one trade attempt). -/
structure Transact where
  ticker : String
  transaction_type : String
  quantity : ℤ
  price : ℚ
  total_amount : ℚ
  status : TxStatus
  notes : Option String
deriving DecidableEq, Repr

/-- `Transaction.save` recomputes `total_amount = quantity * price` before
writing the row. -/
def Transact.saved (t : Transact) : Transact :=
  { t with total_amount := (t.quantity : ℚ) * t.price }

/-- `Order` model: a pending limit order.  `transact` is the
`Order.transaction` link, stored as an index into the transaction list. -/
structure Order where
  id : ℕ
  ticker : String
  side : String
  quantity : ℤ
  limit_price : ℚ
  status : OrdStatus
  expiration_date : ℤ
  transact : Option ℕ
deriving DecidableEq, Repr

/-- The persistent state owned by one portfolio: its cash balance and the
rows of the `Position`, `Transaction` and `Order` tables that belong to it.
`nextOrderId` models the auto-increment primary key of `Order`. -/
structure LedgerState where
  cash_balance : ℚ
  positions : List Position
  transactions : List Transact
  orders : List Order
  nextOrderId : ℕ
deriving DecidableEq, Repr

/-- Result shape of the service calls (`{'success': ..., 'message': ...}`). -/
structure TradeResult where
  success : Bool
  message : String
deriving DecidableEq, Repr

/-- `Position.objects.get(portfolio=..., ticker=...)` (unique by ticker
within a portfolio). -/
def findPosition (s : LedgerState) (ticker : String) : Option Position :=
  s.positions.find? (fun pos => pos.ticker = ticker)

/-- Write back a position row keyed by ticker: replace the row with the
same ticker (positions are unique per ticker within a portfolio), or insert
the row if absent. -/
def upsert : List Position → Position → List Position
  | [], newPos => [newPos]
  | pos :: rest, newPos =>
    if pos.ticker = newPos.ticker then newPos :: rest
    else pos :: upsert rest newPos

/-- Writing a position row back: the effect of `get_or_create` followed by
`save`. -/
def setPosition (s : LedgerState) (newPos : Position) : LedgerState :=
  { s with positions := upsert s.positions newPos }

/-- `position.delete()`. -/
def deletePosition (s : LedgerState) (ticker : String) : LedgerState :=
  { s with positions := s.positions.filter (fun pos => ¬ pos.ticker = ticker) }

/-- `transaction.save()` on a fresh row: append it to the table. -/
def appendTx (s : LedgerState) (t : Transact) : LedgerState :=
  { s with transactions := s.transactions ++ [t.saved] }

/-- `TradingService.execute_market_order(user, ticker, side, quantity)`,
with the oracle's answer for `ticker` passed in as `oracle`. -/
def execute_market_order (s : LedgerState) (ticker side : String)
    (quantity : ℤ) (oracle : Option ℚ) : TradeResult × LedgerState :=
  match oracle with
  | none => ({ success := false, message := "Could not get current price" }, s)
  | some current_price =>
    if current_price = 0 then
      ({ success := false, message := "Could not get current price" }, s)
    else
      let total_amount : ℚ := current_price * (quantity : ℚ)
      let tx : Transact :=
        { ticker := ticker, transaction_type := side, quantity := quantity,
          price := current_price, total_amount := total_amount,
          status := TxStatus.pending, notes := none }
      if side = "BUY" then
        if s.cash_balance < total_amount then
          ({ success := false, message := "Insufficient funds to complete transaction" },
           appendTx s { tx with status := TxStatus.failed, notes := some "Insufficient funds" })
        else
          let s1 := { s with cash_balance := s.cash_balance - total_amount }
          let pos := (findPosition s1 ticker).getD
            { ticker := ticker, quantity := 0, average_buy_price := 0,
              current_price := current_price }
          let pos' :=
            if pos.quantity > 0 then
              let total_value := (pos.quantity : ℚ) * pos.average_buy_price + total_amount
              { pos with quantity := pos.quantity + quantity,
                         average_buy_price := total_value / ((pos.quantity + quantity : ℤ) : ℚ),
                         current_price := current_price }
            else
              { pos with quantity := quantity,
                         average_buy_price := current_price,
                         current_price := current_price }
          let s2 := setPosition s1 pos'
          ({ success := true, message := "Trade executed" },
           appendTx s2 { tx with status := TxStatus.executed })
      else if side = "SELL" then
        match findPosition s ticker with
        | none =>
          ({ success := false, message := "You do not own any shares" },
           appendTx s { tx with status := TxStatus.failed,
                                notes := some "Position does not exist" })
        | some pos =>
          if pos.quantity < quantity then
            ({ success := false, message := "Insufficient shares" },
             appendTx s { tx with status := TxStatus.failed,
                                  notes := some "Insufficient shares" })
          else
            let s1 := { s with cash_balance := s.cash_balance + total_amount }
            let s2 :=
              if pos.quantity - quantity = 0 then
                deletePosition s1 ticker
              else
                setPosition s1 { pos with quantity := pos.quantity - quantity,
                                          current_price := current_price }
            ({ success := true, message := "Trade executed" },
             appendTx s2 { tx with status := TxStatus.executed })
      else
        ({ success := true, message := "Trade executed" },
         appendTx s { tx with status := TxStatus.executed })

/-- `TradingService.place_limit_order(user, ticker, side, quantity,
limit_price, expiration_days)`.  `now` is `timezone.now()`; the source
fetches a current price "for reference" and aborts when there is none. -/
def place_limit_order (s : LedgerState) (ticker side : String) (quantity : ℤ)
    (limit_price : ℚ) (oracle : Option ℚ) (now : ℤ) (expiration_days : ℤ) :
    TradeResult × LedgerState :=
  let createOrder : LedgerState → TradeResult × LedgerState := fun st =>
    let order : Order :=
      { id := st.nextOrderId, ticker := ticker, side := side,
        quantity := quantity, limit_price := limit_price,
        status := OrdStatus.open, expiration_date := now + expiration_days,
        transact := none }
    ({ success := true, message := "Limit order placed" },
     { st with orders := st.orders ++ [order], nextOrderId := st.nextOrderId + 1 })
  match oracle with
  | none => ({ success := false, message := "Could not get current price" }, s)
  | some current_price =>
    if current_price = 0 then
      ({ success := false, message := "Could not get current price" }, s)
    else if side = "BUY" then
      let total_amount : ℚ := limit_price * (quantity : ℚ)
      if s.cash_balance < total_amount then
        ({ success := false, message := "Insufficient funds to place this limit order" }, s)
      else
        createOrder { s with cash_balance := s.cash_balance - total_amount }
    else if side = "SELL" then
      match findPosition s ticker with
      | none => ({ success := false, message := "You do not own any shares" }, s)
      | some pos =>
        if pos.quantity < quantity then
          ({ success := false, message := "Insufficient shares" }, s)
        else
          createOrder s
    else
      createOrder s

/-- `TradingService.cancel_limit_order(order_id, user)`.  The ledger is
scoped to one portfolio and its owner, so the source's owner check
(`order.portfolio.user != user`) always passes here. -/
def cancel_limit_order (s : LedgerState) (order_id : ℕ) :
    TradeResult × LedgerState :=
  match s.orders.find? (fun o => o.id = order_id) with
  | none => ({ success := false, message := "Order not found" }, s)
  | some o =>
    if ¬ o.status = OrdStatus.open then
      ({ success := false, message := "Cannot cancel order" }, s)
    else
      let cash' :=
        if o.side = "BUY" then s.cash_balance + o.limit_price * (o.quantity : ℚ)
        else s.cash_balance
      ({ success := true, message := "Order cancelled successfully" },
       { s with cash_balance := cash',
                orders := s.orders.map (fun o2 =>
                  if o2.id = order_id then { o2 with status := OrdStatus.cancelled } else o2) })

/-- Mark one order's row (matched by id) FILLED and link its transaction. -/
def markFilled (s : LedgerState) (order_id : ℕ) (txIndex : ℕ) : LedgerState :=
  { s with orders := s.orders.map (fun o2 =>
      if o2.id = order_id then
        { o2 with status := OrdStatus.filled, transact := some txIndex }
      else o2) }

/-- `TradingService.execute_limit_order(order, current_price)`.  In the SELL
branch the source credits cash and only then looks the position up; a
missing position raises `Position.DoesNotExist`, which the surrounding
`except` swallows, so the cash credit is kept while the order and the
transaction table are untouched. -/
def execute_limit_order (s : LedgerState) (order : Order) (current_price : ℚ) :
    TradeResult × LedgerState :=
  let tx : Transact :=
    { ticker := order.ticker, transaction_type := order.side,
      quantity := order.quantity, price := current_price,
      total_amount := current_price * (order.quantity : ℚ),
      status := TxStatus.pending, notes := none }
  let finish : LedgerState → TradeResult × LedgerState := fun st =>
    let txIndex := st.transactions.length
    let st1 := appendTx st { tx with status := TxStatus.executed }
    ({ success := true, message := "Limit order executed" },
     markFilled st1 order.id txIndex)
  if order.side = "BUY" then
    let price_diff := order.limit_price - current_price
    let refund_amount := price_diff * (order.quantity : ℚ)
    let s1 :=
      if refund_amount > 0 then
        { s with cash_balance := s.cash_balance + refund_amount }
      else s
    let pos := (findPosition s1 order.ticker).getD
      { ticker := order.ticker, quantity := 0, average_buy_price := 0,
        current_price := current_price }
    let pos' :=
      if pos.quantity > 0 then
        let total_value := (pos.quantity : ℚ) * pos.average_buy_price +
          current_price * (order.quantity : ℚ)
        { pos with quantity := pos.quantity + order.quantity,
                   average_buy_price := total_value / ((pos.quantity + order.quantity : ℤ) : ℚ),
                   current_price := current_price }
      else
        { pos with quantity := order.quantity,
                   average_buy_price := current_price,
                   current_price := current_price }
    finish (setPosition s1 pos')
  else if order.side = "SELL" then
    let s1 := { s with cash_balance := s.cash_balance + current_price * (order.quantity : ℚ) }
    match findPosition s1 order.ticker with
    | none =>
      ({ success := false, message := "Error executing limit order" }, s1)
    | some pos =>
      let s2 :=
        if pos.quantity - order.quantity = 0 then
          deletePosition s1 order.ticker
        else
          setPosition s1 { pos with quantity := pos.quantity - order.quantity,
                                    current_price := current_price }
      finish s2
  else
    finish s

/-- One iteration of the loop in `TradingService.process_limit_orders`:
quote the order's ticker, test the fill condition, execute on a match. -/
def processOneOrder (oracle : String → Option ℚ) (s : LedgerState)
    (order : Order) : LedgerState :=
  match oracle order.ticker with
  | none => s
  | some current_price =>
    if current_price = 0 then s
    else
      let can_execute :=
        (order.side = "BUY" ∧ current_price ≤ order.limit_price) ∨
        (order.side = "SELL" ∧ current_price ≥ order.limit_price)
      if can_execute then (execute_limit_order s order current_price).2 else s

/-- `TradingService.process_limit_orders()`: snapshot the OPEN, unexpired
orders, then fill each whose price condition is met. -/
def process_limit_orders (s : LedgerState) (now : ℤ)
    (oracle : String → Option ℚ) : LedgerState :=
  let open_orders := s.orders.filter
    (fun o => o.status = OrdStatus.open ∧ o.expiration_date > now)
  open_orders.foldl (processOneOrder oracle) s

/-- `TradingService.expire_old_orders()`: one `UPDATE` setting every OPEN
order past expiration to EXPIRED, then a refund loop over every order with
`status=EXPIRED, side=BUY` — the filter of the refund loop is on the
EXPIRED status alone, so it selects previously-expired orders as well. -/
def expire_old_orders (s : LedgerState) (now : ℤ) : ℕ × LedgerState :=
  let expired_count := (s.orders.filter
    (fun o => o.status = OrdStatus.open ∧ o.expiration_date ≤ now)).length
  let marked := s.orders.map (fun o =>
    if o.status = OrdStatus.open ∧ o.expiration_date ≤ now then
      { o with status := OrdStatus.expired }
    else o)
  let expired_buy_orders := marked.filter
    (fun o => o.status = OrdStatus.expired ∧ o.side = "BUY")
  let cash' := expired_buy_orders.foldl
    (fun c o => c + o.limit_price * (o.quantity : ℚ)) s.cash_balance
  (expired_count, { s with cash_balance := cash', orders := marked })

/-- `TradeSerializer.validate_quantity` (`serializers.py`): rejects any
quantity `<= 0` before a trade request reaches the service layer. -/
def validate_quantity (quantity : ℤ) : Except String ℤ :=
  if quantity ≤ 0 then Except.error "Quantity must be positive"
  else Except.ok quantity

/-- The trade endpoint: the serializer validates the request (quantity
included) and only a valid request reaches the execution path. -/
def trade_endpoint (s : LedgerState) (ticker trade_type : String)
    (quantity : ℤ) (oracle : Option ℚ) : TradeResult × LedgerState :=
  match validate_quantity quantity with
  | Except.error msg => ({ success := false, message := msg }, s)
  | Except.ok q => execute_market_order s ticker trade_type q oracle

/-- A single external operation against the ledger, with the oracle's
answers and the clock supplied explicitly. -/
inductive Op where
  | market (ticker side : String) (quantity : ℤ) (oracle : Option ℚ)
  | placeLimit (ticker side : String) (quantity : ℤ) (limit_price : ℚ)
      (oracle : Option ℚ) (now : ℤ) (expiration_days : ℤ)
  | cancel (order_id : ℕ)
  | fillSweep (now : ℤ) (oracle : String → Option ℚ)
  | expireSweep (now : ℤ)

/-- Apply one operation (dropping the returned result). -/
def applyOp (s : LedgerState) : Op → LedgerState
  | Op.market ticker side q oracle => (execute_market_order s ticker side q oracle).2
  | Op.placeLimit ticker side q limit oracle now days =>
      (place_limit_order s ticker side q limit oracle now days).2
  | Op.cancel order_id => (cancel_limit_order s order_id).2
  | Op.fillSweep now oracle => process_limit_orders s now oracle
  | Op.expireSweep now => (expire_old_orders s now).2

/-- Run a sequence of operations. -/
def runOps (s : LedgerState) (ops : List Op) : LedgerState :=
  ops.foldl applyOp s

/-- A freshly-created portfolio: seeded cash, no positions, no
transactions, no orders (`Portfolio.objects.get_or_create` defaults). -/
def freshLedger (seed : ℚ) : LedgerState :=
  { cash_balance := seed, positions := [], transactions := [], orders := [],
    nextOrderId := 0 }

/-- Well-formed external requests: positive quantities (the serializer
boundary, `validate_quantity`), positive limit prices, and oracle quotes
that are positive whenever present (market closing prices). -/
def validOp : Op → Prop
  | Op.market _ _ q oracle => 0 < q ∧ ∀ p, oracle = some p → 0 < p
  | Op.placeLimit _ _ q limit oracle _ _ =>
      0 < q ∧ 0 < limit ∧ ∀ p, oracle = some p → 0 < p
  | Op.cancel _ => True
  | Op.fillSweep _ oracle => ∀ t p, oracle t = some p → 0 < p
  | Op.expireSweep _ => True

/-- The saved form of the audit row `execute_market_order` writes
(`Transaction.save` recomputes `total_amount = quantity * price`). -/
def marketTx (ticker side : String) (q : ℤ) (p : ℚ) (st : TxStatus)
    (n : Option String) : Transact :=
  { ticker := ticker, transaction_type := side, quantity := q, price := p,
    total_amount := (q : ℚ) * p, status := st, notes := n }

/-- The OPEN order row created by a successful `place_limit_order`. -/
def placedOrder (s : LedgerState) (ticker side : String) (q : ℤ)
    (limit : ℚ) (now days : ℤ) : Order :=
  { id := s.nextOrderId, ticker := ticker, side := side, quantity := q,
    limit_price := limit, status := OrdStatus.open,
    expiration_date := now + days, transact := none }

/-- A ledger holding one position and some cash (used to instantiate the
general theorems at concrete inputs). -/
def ledgerWithPos (c : ℚ) (pos : Position) : LedgerState :=
  { cash_balance := c, positions := [pos], transactions := [], orders := [],
    nextOrderId := 0 }

/-- A concrete position: 10 shares of AAPL at average cost 100. -/
def posA10 : Position :=
  { ticker := "AAPL", quantity := 10, average_buy_price := 100,
    current_price := 100 }

/-- A concrete OPEN BUY limit order: 10 shares of AAPL at limit 50. -/
def orderC7 : Order :=
  { id := 0, ticker := "AAPL", side := "BUY", quantity := 10,
    limit_price := 50, status := OrdStatus.open, expiration_date := 30,
    transact := none }

/-! ### Helper lemmas about the store operations -/

theorem find?_upsert_self (l : List Position) (newPos : Position) (t : String)
    (ht : newPos.ticker = t) :
    (upsert l newPos).find? (fun pos => pos.ticker = t) = some newPos := by
  induction l with
  | nil => simp [upsert, List.find?, ht]
  | cons pos rest ih =>
    by_cases h : pos.ticker = newPos.ticker
    · simp [upsert, h, List.find?, ht]
    · have hpt : ¬ pos.ticker = t := by
        intro hc; exact h (hc.trans ht.symm)
      simp [upsert, h, List.find?, hpt, ih]

theorem find?_filter_ne (l : List Position) (t : String) :
    (l.filter (fun pos => ¬ pos.ticker = t)).find? (fun pos => pos.ticker = t)
      = none := by
  induction l with
  | nil => simp
  | cons pos rest ih =>
    by_cases h : pos.ticker = t
    · simp [List.filter, h, ih]
    · simp [List.filter, h, List.find?, ih]

theorem find?_append_fresh (l : List Order) (o : Order) (i : ℕ)
    (hi : o.id = i) (h : ∀ x ∈ l, ¬ x.id = i) :
    (l ++ [o]).find? (fun x => x.id = i) = some o := by
  induction l with
  | nil => simp [List.find?, hi]
  | cons x rest ih =>
    have hx : ¬ x.id = i := h x (by simp)
    simpa [List.find?, hx] using ih (fun y hy => h y (by simp [hy]))

/-! ### The solvency invariant and its preservation -/

/-- Every stored order was validated at placement: positive quantity and a
positive limit price. -/
def ordersOK (s : LedgerState) : Prop :=
  ∀ o ∈ s.orders, 0 < o.quantity ∧ 0 < o.limit_price

/-- The inductive invariant behind solvency: nonnegative cash together with
well-formed stored orders. -/
def SolventInv (s : LedgerState) : Prop :=
  0 ≤ s.cash_balance ∧ ordersOK s

theorem ordersOK_of_statusMap (s : LedgerState) (f : Order → Order)
    (hf : ∀ o, (f o).quantity = o.quantity ∧ (f o).limit_price = o.limit_price)
    (h : ordersOK s) : ∀ o ∈ s.orders.map f, 0 < o.quantity ∧ 0 < o.limit_price := by
  intro o ho
  rcases List.mem_map.mp ho with ⟨o0, ho0, rfl⟩
  rcases h o0 ho0 with ⟨h1, h2⟩
  rcases hf o0 with ⟨e1, e2⟩
  exact ⟨e1 ▸ h1, e2 ▸ h2⟩

theorem SolventInv_execute_market_order (s : LedgerState) (ticker side : String)
    (q : ℤ) (oracle : Option ℚ) (hq : 0 < q)
    (hp : ∀ p, oracle = some p → 0 < p) (h : SolventInv s) :
    SolventInv (execute_market_order s ticker side q oracle).2 := by
  obtain ⟨hc, ho⟩ := h
  cases oracle with
  | none => exact ⟨hc, ho⟩
  | some p =>
    have hp' : 0 < p := hp p rfl
    have hq' : (0 : ℚ) < (q : ℚ) := by exact_mod_cast hq
    simp only [execute_market_order]
    split
    · exact ⟨hc, ho⟩
    · split
      · -- BUY branch
        split
        · exact ⟨hc, ho⟩
        · rename_i hcash
          refine ⟨?_, ho⟩
          simp only [appendTx, setPosition]
          push_neg at hcash
          simpa using sub_nonneg.mpr hcash
      · split
        · -- SELL branch
          split
          · exact ⟨hc, ho⟩
          · rename_i pos _ _
            split
            · exact ⟨hc, ho⟩
            · have htot : 0 ≤ p * (q : ℚ) := le_of_lt (mul_pos hp' hq')
              split
              · exact ⟨by simp only [appendTx, deletePosition]; linarith, ho⟩
              · exact ⟨by simp only [appendTx, setPosition]; linarith, ho⟩
        · exact ⟨hc, ho⟩

theorem ordersOK_snoc (ords : List Order) (newOrder : Order) (q : ℤ)
    (limit_price : ℚ) (hq : 0 < q) (hl : 0 < limit_price)
    (he1 : newOrder.quantity = q) (he2 : newOrder.limit_price = limit_price)
    (h : ∀ o ∈ ords, 0 < o.quantity ∧ 0 < o.limit_price) :
    ∀ o ∈ ords ++ [newOrder], 0 < o.quantity ∧ 0 < o.limit_price := by
  intro o hmem
  rcases List.mem_append.mp hmem with hmem | hmem
  · exact h o hmem
  · rcases List.mem_singleton.mp hmem with rfl
    exact ⟨he1 ▸ hq, he2 ▸ hl⟩

theorem SolventInv_place_limit_order (s : LedgerState) (ticker side : String)
    (q : ℤ) (limit_price : ℚ) (oracle : Option ℚ) (now days : ℤ)
    (hq : 0 < q) (hl : 0 < limit_price) (h : SolventInv s) :
    SolventInv (place_limit_order s ticker side q limit_price oracle now days).2 := by
  obtain ⟨hc, ho⟩ := h
  cases oracle with
  | none => exact ⟨hc, ho⟩
  | some p =>
    simp only [place_limit_order]
    split
    · exact ⟨hc, ho⟩
    · split
      · -- BUY branch
        split
        · exact ⟨hc, ho⟩
        · rename_i hcash
          push_neg at hcash
          exact ⟨by simpa using sub_nonneg.mpr hcash,
                 ordersOK_snoc _ _ q limit_price hq hl rfl rfl ho⟩
      · split
        · -- SELL branch
          split
          · exact ⟨hc, ho⟩
          · split
            · exact ⟨hc, ho⟩
            · exact ⟨hc, ordersOK_snoc _ _ q limit_price hq hl rfl rfl ho⟩
        · exact ⟨hc, ordersOK_snoc _ _ q limit_price hq hl rfl rfl ho⟩

theorem SolventInv_cancel_limit_order (s : LedgerState) (order_id : ℕ)
    (h : SolventInv s) : SolventInv (cancel_limit_order s order_id).2 := by
  obtain ⟨hc, ho⟩ := h
  simp only [cancel_limit_order]
  split
  · exact ⟨hc, ho⟩
  · rename_i o hfind
    have hmem : o ∈ s.orders := List.mem_of_find?_eq_some hfind
    rcases ho o hmem with ⟨hoq, hol⟩
    split
    · exact ⟨hc, ho⟩
    · constructor
      · split
        · have : (0 : ℚ) ≤ o.limit_price * (o.quantity : ℚ) :=
            le_of_lt (mul_pos hol (by exact_mod_cast hoq))
          simp only []
          linarith
        · exact hc
      · exact ordersOK_of_statusMap s _
          (fun o2 => by by_cases h2 : o2.id = order_id <;> simp [h2]) ho

theorem SolventInv_execute_limit_order (s : LedgerState) (order : Order)
    (p : ℚ) (hq : 0 < order.quantity) (_hl : 0 < order.limit_price)
    (hp : 0 < p) (h : SolventInv s) :
    SolventInv (execute_limit_order s order p).2 := by
  obtain ⟨hc, ho⟩ := h
  have hfill : ∀ (st : LedgerState) (tx2 : Transact),
      0 ≤ st.cash_balance → ordersOK st →
      SolventInv (markFilled (appendTx st tx2) order.id st.transactions.length) := by
    intro st tx2 h1 h2
    refine ⟨h1, ?_⟩
    simp only [markFilled, appendTx]
    exact ordersOK_of_statusMap { st with
        transactions := st.transactions ++ [tx2.saved] } _
      (fun o2 => by by_cases h2 : o2.id = order.id <;> simp [h2]) h2
  simp only [execute_limit_order]
  split
  · -- BUY branch
    refine hfill _ _ ?_ ?_
    · show (0 : ℚ) ≤ (if _ then _ else s).cash_balance
      split
      · rename_i href
        simp only []
        linarith [le_of_lt href]
      · exact hc
    · intro o hmem
      refine ho o ?_
      revert hmem
      show o ∈ (if _ then _ else s).orders → o ∈ s.orders
      split <;> exact id
  · split
    · -- SELL branch
      have htot : (0 : ℚ) ≤ p * (order.quantity : ℚ) :=
        le_of_lt (mul_pos hp (by exact_mod_cast hq))
      split
      · exact ⟨by simp only []; linarith, ho⟩
      · refine hfill _ _ ?_ ?_
        · split <;> · simp only [deletePosition, setPosition]; linarith
        · split <;> exact ho
    · exact hfill _ _ hc ho

theorem SolventInv_processOneOrder (s : LedgerState) (order : Order)
    (oracle : String → Option ℚ) (hq : 0 < order.quantity)
    (hl : 0 < order.limit_price) (hp : ∀ t p, oracle t = some p → 0 < p)
    (h : SolventInv s) : SolventInv (processOneOrder oracle s order) := by
  simp only [processOneOrder]
  split
  · exact h
  · rename_i p hsome
    have hp' : 0 < p := hp _ _ hsome
    split
    · exact h
    · split
      · exact SolventInv_execute_limit_order s order p hq hl hp' h
      · exact h

theorem SolventInv_foldl_processOneOrder (l : List Order) (s : LedgerState)
    (oracle : String → Option ℚ)
    (hl : ∀ o ∈ l, 0 < o.quantity ∧ 0 < o.limit_price)
    (hp : ∀ t p, oracle t = some p → 0 < p) (h : SolventInv s) :
    SolventInv (l.foldl (processOneOrder oracle) s) := by
  induction l generalizing s with
  | nil => exact h
  | cons o rest ih =>
    rcases hl o (by simp) with ⟨h1, h2⟩
    exact ih _ (fun o2 hm => hl o2 (by simp [hm]))
      (SolventInv_processOneOrder s o oracle h1 h2 hp h)

theorem SolventInv_process_limit_orders (s : LedgerState) (now : ℤ)
    (oracle : String → Option ℚ) (hp : ∀ t p, oracle t = some p → 0 < p)
    (h : SolventInv s) : SolventInv (process_limit_orders s now oracle) := by
  refine SolventInv_foldl_processOneOrder _ s oracle ?_ hp h
  intro o hmem
  exact h.2 o (List.mem_of_mem_filter hmem)

theorem refund_foldl_nonneg (l : List Order) (c : ℚ) (hc : 0 ≤ c)
    (h : ∀ o ∈ l, (0 : ℚ) ≤ o.limit_price * (o.quantity : ℚ)) :
    0 ≤ l.foldl (fun c2 o => c2 + o.limit_price * (o.quantity : ℚ)) c := by
  induction l generalizing c with
  | nil => exact hc
  | cons o rest ih =>
    refine ih _ ?_ (fun o2 hm => h o2 (by simp [hm]))
    have := h o (by simp)
    show 0 ≤ c + o.limit_price * (o.quantity : ℚ)
    linarith

theorem SolventInv_expire_old_orders (s : LedgerState) (now : ℤ)
    (h : SolventInv s) : SolventInv (expire_old_orders s now).2 := by
  obtain ⟨hc, ho⟩ := h
  have hmark : ∀ o ∈ s.orders.map (fun o =>
      if o.status = OrdStatus.open ∧ o.expiration_date ≤ now then
        { o with status := OrdStatus.expired }
      else o), 0 < o.quantity ∧ 0 < o.limit_price := by
    refine ordersOK_of_statusMap s _ ?_ ho
    intro o
    by_cases h2 : o.status = OrdStatus.open ∧ o.expiration_date ≤ now <;> simp [h2]
  refine ⟨?_, ?_⟩
  · show 0 ≤ List.foldl _ s.cash_balance _
    refine refund_foldl_nonneg _ _ hc ?_
    intro o hmem
    rcases hmark o (List.mem_of_mem_filter hmem) with ⟨h1, h2⟩
    exact le_of_lt (mul_pos h2 (by exact_mod_cast h1))
  · exact hmark

theorem SolventInv_applyOp (s : LedgerState) (op : Op) (hv : validOp op)
    (h : SolventInv s) : SolventInv (applyOp s op) := by
  cases op with
  | market ticker side q oracle =>
    exact SolventInv_execute_market_order s ticker side q oracle hv.1 hv.2 h
  | placeLimit ticker side q limit oracle now days =>
    exact SolventInv_place_limit_order s ticker side q limit oracle now days
      hv.1 hv.2.1 h
  | cancel order_id => exact SolventInv_cancel_limit_order s order_id h
  | fillSweep now oracle => exact SolventInv_process_limit_orders s now oracle hv h
  | expireSweep now => exact SolventInv_expire_old_orders s now h

theorem SolventInv_runOps (s : LedgerState) (ops : List Op)
    (hops : ∀ op ∈ ops, validOp op) (h : SolventInv s) :
    SolventInv (runOps s ops) := by
  induction ops generalizing s with
  | nil => exact h
  | cons op rest ih =>
    exact ih (applyOp s op) (fun o ho2 => hops o (by simp [ho2]))
      (SolventInv_applyOp s op (hops op (by simp)) h)

/-! ### Projection helpers -/

@[simp] theorem setPosition_transactions (s : LedgerState) (pos : Position) :
    (setPosition s pos).transactions = s.transactions := rfl

@[simp] theorem deletePosition_transactions (s : LedgerState) (t : String) :
    (deletePosition s t).transactions = s.transactions := rfl

@[simp] theorem appendTx_transactions (s : LedgerState) (t : Transact) :
    (appendTx s t).transactions = s.transactions ++ [t.saved] := rfl

@[simp] theorem setPosition_cash_balance (s : LedgerState) (pos : Position) :
    (setPosition s pos).cash_balance = s.cash_balance := rfl

@[simp] theorem deletePosition_cash_balance (s : LedgerState) (t : String) :
    (deletePosition s t).cash_balance = s.cash_balance := rfl

@[simp] theorem appendTx_cash_balance (s : LedgerState) (t : Transact) :
    (appendTx s t).cash_balance = s.cash_balance := rfl

@[simp] theorem appendTx_positions (s : LedgerState) (t : Transact) :
    (appendTx s t).positions = s.positions := rfl

@[simp] theorem markFilled_cash_balance (s : LedgerState) (i j : ℕ) :
    (markFilled s i j).cash_balance = s.cash_balance := rfl

@[simp] theorem markFilled_transactions (s : LedgerState) (i j : ℕ) :
    (markFilled s i j).transactions = s.transactions := rfl

@[simp] theorem markFilled_positions (s : LedgerState) (i j : ℕ) :
    (markFilled s i j).positions = s.positions := rfl

theorem findPosition_appendTx (s : LedgerState) (t0 : Transact) (t : String) :
    findPosition (appendTx s t0) t = findPosition s t := rfl

theorem findPosition_withCash (s : LedgerState) (c : ℚ) (t : String) :
    findPosition { s with cash_balance := c } t = findPosition s t := rfl

theorem findPosition_markFilled (s : LedgerState) (i j : ℕ) (t : String) :
    findPosition (markFilled s i j) t = findPosition s t := rfl

theorem findPosition_setPosition (s : LedgerState) (newPos : Position)
    (t : String) (ht : newPos.ticker = t) :
    findPosition (setPosition s newPos) t = some newPos :=
  find?_upsert_self s.positions newPos t ht

theorem findPosition_deletePosition (s : LedgerState) (t : String) :
    findPosition (deletePosition s t) t = none :=
  find?_filter_ne s.positions t

theorem ticker_of_findPosition (s : LedgerState) (t : String) (pos : Position)
    (h : findPosition s t = some pos) : pos.ticker = t := by
  have := List.find?_some h
  simpa using this

/-! ### The claims -/

/-- C1: starting from a freshly-created portfolio, any sequence of valid
trade, limit-order, cancel, fill-sweep and expiry-sweep operations keeps
the cash balance nonnegative; moreover a market BUY whose total exceeds the
cash balance, or a BUY limit placement whose reservation exceeds it, is
rejected with the insufficient-funds failure and mutates neither cash nor
positions.  Valid operations have positive quantities (enforced by
`validate_quantity` at the API boundary), positive limit prices, and
positive oracle quotes; the seed balance (`settings.INITIAL_BALANCE`) is
nonnegative. -/
theorem C1_solvency_invariant :
    (∀ seed : ℚ, 0 ≤ seed → ∀ ops : List Op, (∀ op ∈ ops, validOp op) →
      0 ≤ (runOps (freshLedger seed) ops).cash_balance) ∧
    (∀ (s : LedgerState) (ticker : String) (q : ℤ) (p : ℚ), ¬ p = 0 →
      s.cash_balance < p * (q : ℚ) →
      (execute_market_order s ticker "BUY" q (some p)).1.success = false ∧
      (execute_market_order s ticker "BUY" q (some p)).1.message
          = "Insufficient funds to complete transaction" ∧
      (execute_market_order s ticker "BUY" q (some p)).2.cash_balance
          = s.cash_balance ∧
      (execute_market_order s ticker "BUY" q (some p)).2.positions
          = s.positions) ∧
    (∀ (s : LedgerState) (ticker : String) (q : ℤ) (limit p : ℚ)
        (now days : ℤ), ¬ p = 0 → s.cash_balance < limit * (q : ℚ) →
      (place_limit_order s ticker "BUY" q limit (some p) now days).1.success
          = false ∧
      (place_limit_order s ticker "BUY" q limit (some p) now days).2 = s) := by
  refine ⟨?_, ?_, ?_⟩
  · intro seed hseed ops hops
    refine (SolventInv_runOps (freshLedger seed) ops hops ⟨hseed, ?_⟩).1
    intro o ho
    simp [freshLedger] at ho
  · intro s ticker q p hp hcash
    simp [execute_market_order, hp, hcash, appendTx]
  · intro s ticker q limit p now days hp hcash
    simp [place_limit_order, hp, hcash]

/-- C5: a trade request whose quantity is not positive is rejected by the
serializer boundary (`TradeSerializer.validate_quantity`) with the
invalid-quantity error, so the execution path is never entered and no cash,
position or transaction state changes. -/
theorem C5_zero_quantity_rejected :
    ∀ (s : LedgerState) (ticker trade_type : String) (q : ℤ)
      (oracle : Option ℚ), q ≤ 0 →
      (trade_endpoint s ticker trade_type q oracle).1.success = false ∧
      (trade_endpoint s ticker trade_type q oracle).1.message
          = "Quantity must be positive" ∧
      (trade_endpoint s ticker trade_type q oracle).2 = s := by
  intro s ticker trade_type q oracle hq
  simp [trade_endpoint, validate_quantity, hq]

/-- C10: a market-order call whose side is neither "BUY" nor "SELL" falls
through both branches of `execute_market_order`: it returns success and
appends an EXECUTED transaction while touching neither cash nor
positions. -/
theorem C10_unknown_side_executes :
    ∀ (s : LedgerState) (ticker side : String) (q : ℤ) (p : ℚ),
      ¬ side = "BUY" → ¬ side = "SELL" → ¬ p = 0 →
      (execute_market_order s ticker side q (some p)).1.success = true ∧
      (execute_market_order s ticker side q (some p)).2.cash_balance
          = s.cash_balance ∧
      (execute_market_order s ticker side q (some p)).2.positions
          = s.positions ∧
      ∃ t, (execute_market_order s ticker side q (some p)).2.transactions
            = s.transactions ++ [t] ∧ t.status = TxStatus.executed := by
  intro s ticker side q p hb hs hp
  refine ⟨?_, ?_, ?_, ?_⟩ <;>
    simp [execute_market_order, hb, hs, hp, appendTx, Transact.saved]

/-- C3 (amended): `execute_market_order` writes exactly one Transaction on
every call that obtains a usable quote — EXECUTED on success, FAILED with a
nonempty reason note on any validation failure — but a call for which the
price oracle returns no quote (or a zero quote, which the source's `if not
current_price` also treats as missing) returns before the Transaction row
is created and writes nothing. -/
theorem C3_transaction_audit :
    ∀ (s : LedgerState) (ticker side : String) (q : ℤ),
      ((execute_market_order s ticker side q none).2.transactions
          = s.transactions) ∧
      ((execute_market_order s ticker side q (some 0)).2.transactions
          = s.transactions) ∧
      (∀ p : ℚ, ¬ p = 0 →
        ∃ t, (execute_market_order s ticker side q (some p)).2.transactions
              = s.transactions ++ [t] ∧
          ((execute_market_order s ticker side q (some p)).1.success = true →
            t.status = TxStatus.executed) ∧
          ((execute_market_order s ticker side q (some p)).1.success = false →
            t.status = TxStatus.failed ∧ ¬ t.notes = none)) := by
  intro s ticker side q
  refine ⟨rfl, by simp [execute_market_order], ?_⟩
  intro p hp
  by_cases hb : side = "BUY"
  · by_cases hcash : s.cash_balance < p * (q : ℚ)
    · refine ⟨marketTx ticker side q p TxStatus.failed (some "Insufficient funds"),
        ?_, ?_, ?_⟩ <;>
        simp [execute_market_order, hp, hb, hcash, marketTx, Transact.saved]
    · refine ⟨marketTx ticker side q p TxStatus.executed none, ?_, ?_, ?_⟩ <;>
        simp [execute_market_order, hp, hb, hcash, marketTx, Transact.saved]
  · by_cases hs2 : side = "SELL"
    · rcases hfind : findPosition s ticker with _ | pos
      · refine ⟨marketTx ticker side q p TxStatus.failed
            (some "Position does not exist"), ?_, ?_, ?_⟩ <;>
          simp [execute_market_order, hp, hb, hs2, hfind, marketTx, Transact.saved]
      · by_cases hq2 : pos.quantity < q
        · refine ⟨marketTx ticker side q p TxStatus.failed
              (some "Insufficient shares"), ?_, ?_, ?_⟩ <;>
            simp [execute_market_order, hp, hb, hs2, hfind, hq2, marketTx,
              Transact.saved]
        · refine ⟨marketTx ticker side q p TxStatus.executed none, ?_, ?_, ?_⟩ <;>
            simp [execute_market_order, hp, hb, hs2, hfind, hq2, marketTx,
              Transact.saved] <;>
            (split <;> simp)
    · refine ⟨marketTx ticker side q p TxStatus.executed none, ?_, ?_, ?_⟩ <;>
        simp [execute_market_order, hp, hb, hs2, marketTx, Transact.saved]

/-- C3 counterexample: a call of `execute_market_order` for which the price
oracle returns no quote writes no Transaction record at all (the claim
demands exactly one, FAILED, even in this case). -/
theorem C3_price_unavailable_writes_no_record :
    (execute_market_order (freshLedger 1000) "AAPL" "BUY" 5 none).1.success
        = false ∧
    (execute_market_order (freshLedger 1000) "AAPL" "BUY" 5
        none).2.transactions.length = 0 := by
  exact ⟨rfl, rfl⟩

/-- C4: an increasing trade on an existing position with positive quantity
recomputes the average cost as the quantity-weighted mean
`(q0*a0 + q*p) / (q0+q)` and the quantity as `q0 + q`; concretely, buying
10 shares at 100 and then 10 at 200 yields quantity 20 and average cost
exactly 150. -/
theorem C4_weighted_average_cost :
    (∀ (s : LedgerState) (ticker : String) (q : ℤ) (p : ℚ) (pos : Position),
      findPosition s ticker = some pos → 0 < pos.quantity → ¬ p = 0 →
      ¬ s.cash_balance < p * (q : ℚ) →
      ∃ pos', findPosition (execute_market_order s ticker "BUY" q
              (some p)).2 ticker = some pos' ∧
        pos'.quantity = pos.quantity + q ∧
        pos'.average_buy_price
          = ((pos.quantity : ℚ) * pos.average_buy_price + (q : ℚ) * p)
              / ((pos.quantity : ℚ) + (q : ℚ))) ∧
    findPosition (runOps (freshLedger 10000)
        [Op.market "AAPL" "BUY" 10 (some 100),
         Op.market "AAPL" "BUY" 10 (some 200)]) "AAPL"
      = some { ticker := "AAPL", quantity := 20, average_buy_price := 150,
               current_price := 200 } := by
  constructor
  · intro s ticker q p pos hfind hq0 hp hcash
    have hpt : pos.ticker = ticker := ticker_of_findPosition s ticker pos hfind
    have hfind1 : findPosition
        { s with cash_balance := s.cash_balance - p * (q : ℚ) } ticker
        = some pos := hfind
    refine ⟨{ ticker := pos.ticker, quantity := pos.quantity + q,
              average_buy_price := ((pos.quantity : ℚ) * pos.average_buy_price
                  + p * (q : ℚ)) / (((pos.quantity + q : ℤ)) : ℚ),
              current_price := p }, ?_, rfl, ?_⟩
    · simp [execute_market_order, hp, hcash, hfind1, hq0,
        findPosition_appendTx, findPosition_setPosition, hpt]
    · push_cast
      ring_nf
  · simp only [runOps, List.foldl, applyOp]
    norm_num [execute_market_order, freshLedger, findPosition, setPosition,
      upsert, appendTx, Transact.saved]

/-- C9: a successful partial SELL leaves the average buy price (and the
ticker) of the position unchanged, updating only quantity and the
last-known price; a SELL of the entire held quantity deletes the position
instead of keeping a zero-quantity row. -/
theorem C9_sell_preserves_cost_basis :
    ∀ (s : LedgerState) (ticker : String) (q : ℤ) (p : ℚ) (pos : Position),
      findPosition s ticker = some pos → ¬ p = 0 → q ≤ pos.quantity →
      (execute_market_order s ticker "SELL" q (some p)).1.success = true ∧
      (q < pos.quantity →
        ∃ pos', findPosition (execute_market_order s ticker "SELL" q
              (some p)).2 ticker = some pos' ∧
          pos'.average_buy_price = pos.average_buy_price ∧
          pos'.quantity = pos.quantity - q ∧
          pos'.current_price = p ∧
          pos'.ticker = pos.ticker) ∧
      (q = pos.quantity →
        findPosition (execute_market_order s ticker "SELL" q (some p)).2 ticker
          = none) := by
  intro s ticker q p pos hfind hp hq
  have hpt : pos.ticker = ticker := ticker_of_findPosition s ticker pos hfind
  have hlt : ¬ pos.quantity < q := not_lt.mpr hq
  refine ⟨by simp [execute_market_order, hp, hfind, hlt], ?_, ?_⟩
  · intro hqlt
    have hne : ¬ pos.quantity - q = 0 := by omega
    refine ⟨{ ticker := pos.ticker, quantity := pos.quantity - q,
              average_buy_price := pos.average_buy_price,
              current_price := p }, ?_, rfl, rfl, rfl, rfl⟩
    simp [execute_market_order, hp, hfind, hlt, hne, findPosition_appendTx,
      findPosition_setPosition, hpt]
  · intro hqe
    have hzero : pos.quantity - q = 0 := by omega
    simp [execute_market_order, hp, hfind, hlt, hzero, findPosition_appendTx,
      findPosition_deletePosition]

/-- C7: a BUY limit order filling at a market price at or below its limit
price is recorded at the market price, the shares are credited to the
position, and the cash balance is credited exactly
`(limit_price - fill_price) * quantity` (the reservation reconciliation);
concretely, a BUY limit of 10 at 50 placed against a 500 balance and later
swept at price 45 leaves a cash balance of 50. -/
theorem C7_buy_limit_fill_refund :
    (∀ (s : LedgerState) (o : Order) (p : ℚ),
      o.side = "BUY" → 0 < o.quantity → p ≤ o.limit_price →
      (∀ pos, findPosition s o.ticker = some pos → 0 ≤ pos.quantity) →
      (execute_limit_order s o p).1.success = true ∧
      (execute_limit_order s o p).2.cash_balance
          = s.cash_balance + (o.limit_price - p) * (o.quantity : ℚ) ∧
      (∃ t, (execute_limit_order s o p).2.transactions
            = s.transactions ++ [t] ∧
        t.price = p ∧ t.quantity = o.quantity ∧
        t.status = TxStatus.executed) ∧
      (∃ pos', findPosition (execute_limit_order s o p).2 o.ticker
            = some pos' ∧
        pos'.quantity
          = (((findPosition s o.ticker).map Position.quantity).getD 0)
              + o.quantity)) ∧
    (runOps (freshLedger 500)
        [Op.placeLimit "AAPL" "BUY" 10 50 (some 50) 0 30,
         Op.fillSweep 0 (fun _ => some 45)]).cash_balance = 50 := by
  constructor
  · intro s o p hside hq hple hpos
    have hrefund : 0 ≤ (o.limit_price - p) * (o.quantity : ℚ) :=
      mul_nonneg (by linarith) (by exact_mod_cast le_of_lt hq)
    by_cases hr : (o.limit_price - p) * (o.quantity : ℚ) > 0
    case neg =>
      have hzero : (o.limit_price - p) * (o.quantity : ℚ) = 0 :=
        le_antisymm (not_lt.mp hr) hrefund
      refine ⟨?_, ?_, ?_, ?_⟩
      · simp [execute_limit_order, hside, hr]
      · simp [execute_limit_order, hside, hr, hzero]
      · refine ⟨{ ticker := o.ticker, transaction_type := o.side,
                  quantity := o.quantity, price := p,
                  total_amount := (o.quantity : ℚ) * p,
                  status := TxStatus.executed, notes := none }, ?_, rfl, rfl, rfl⟩
        simp [execute_limit_order, hside, hr, Transact.saved]
      · rcases hfind : findPosition s o.ticker with _ | pos0
        · refine ⟨{ ticker := o.ticker, quantity := o.quantity,
                    average_buy_price := p, current_price := p },
                  ?_, by simp [hfind]⟩
          simp [execute_limit_order, hside, hr, findPosition_markFilled,
            findPosition_appendTx, hfind, findPosition_setPosition]
        · have hq0 : 0 ≤ pos0.quantity := hpos pos0 hfind
          have hpt : pos0.ticker = o.ticker :=
            ticker_of_findPosition s o.ticker pos0 hfind
          by_cases hq0pos : 0 < pos0.quantity
          · refine ⟨{ ticker := pos0.ticker,
                      quantity := pos0.quantity + o.quantity,
                      average_buy_price := ((pos0.quantity : ℚ)
                          * pos0.average_buy_price + p * (o.quantity : ℚ))
                        / (((pos0.quantity + o.quantity : ℤ)) : ℚ),
                      current_price := p }, ?_, by simp [hfind]⟩
            simp [execute_limit_order, hside, hr, findPosition_markFilled,
              findPosition_appendTx, hfind, hq0pos, findPosition_setPosition,
              hpt]
          · have hq00 : pos0.quantity = 0 :=
              le_antisymm (not_lt.mp hq0pos) hq0
            refine ⟨{ ticker := pos0.ticker, quantity := o.quantity,
                      average_buy_price := p, current_price := p },
                    ?_, by simp [hfind, hq00]⟩
            simp [execute_limit_order, hside, hr, findPosition_markFilled,
              findPosition_appendTx, hfind, hq00, findPosition_setPosition,
              hpt]
    case pos =>
      refine ⟨?_, ?_, ?_, ?_⟩
      · simp [execute_limit_order, hside, hr]
      · simp [execute_limit_order, hside, hr]
      · refine ⟨{ ticker := o.ticker, transaction_type := o.side,
                  quantity := o.quantity, price := p,
                  total_amount := (o.quantity : ℚ) * p,
                  status := TxStatus.executed, notes := none }, ?_, rfl, rfl, rfl⟩
        simp [execute_limit_order, hside, hr, Transact.saved]
      · rcases hfind : findPosition s o.ticker with _ | pos0
        · refine ⟨{ ticker := o.ticker, quantity := o.quantity,
                    average_buy_price := p, current_price := p },
                  ?_, by simp [hfind]⟩
          simp [execute_limit_order, hside, hr, findPosition_markFilled,
            findPosition_appendTx, findPosition_withCash, hfind,
            findPosition_setPosition]
        · have hq0 : 0 ≤ pos0.quantity := hpos pos0 hfind
          have hpt : pos0.ticker = o.ticker :=
            ticker_of_findPosition s o.ticker pos0 hfind
          by_cases hq0pos : 0 < pos0.quantity
          · refine ⟨{ ticker := pos0.ticker,
                      quantity := pos0.quantity + o.quantity,
                      average_buy_price := ((pos0.quantity : ℚ)
                          * pos0.average_buy_price + p * (o.quantity : ℚ))
                        / (((pos0.quantity + o.quantity : ℤ)) : ℚ),
                      current_price := p }, ?_, by simp [hfind]⟩
            simp [execute_limit_order, hside, hr, findPosition_markFilled,
              findPosition_appendTx, findPosition_withCash, hfind, hq0pos,
              findPosition_setPosition, hpt]
          · have hq00 : pos0.quantity = 0 :=
              le_antisymm (not_lt.mp hq0pos) hq0
            refine ⟨{ ticker := pos0.ticker, quantity := o.quantity,
                      average_buy_price := p, current_price := p },
                    ?_, by simp [hfind, hq00]⟩
            simp [execute_limit_order, hside, hr, findPosition_markFilled,
              findPosition_appendTx, findPosition_withCash, hfind, hq00,
              findPosition_setPosition, hpt]
  · simp only [runOps, List.foldl, applyOp]
    norm_num [place_limit_order, process_limit_orders, processOneOrder,
      execute_limit_order, markFilled, freshLedger, findPosition,
      setPosition, upsert, appendTx, Transact.saved]

/-- C8: placing a BUY limit order debits exactly `quantity * limit_price`
from the cash balance, and cancelling it while still OPEN credits exactly
the same amount back, returning the balance to its pre-order value. -/
theorem C8_reservation_round_trip :
    ∀ (s : LedgerState) (ticker : String) (q : ℤ) (limit p : ℚ)
      (now days : ℤ), ¬ p = 0 → ¬ s.cash_balance < limit * (q : ℚ) →
      (∀ o ∈ s.orders, ¬ o.id = s.nextOrderId) →
      (place_limit_order s ticker "BUY" q limit (some p) now days).2.cash_balance
          = s.cash_balance - limit * (q : ℚ) ∧
      (cancel_limit_order
          (place_limit_order s ticker "BUY" q limit (some p) now days).2
          s.nextOrderId).2.cash_balance
        = s.cash_balance := by
  intro s ticker q limit p now days hp hcash hfresh
  have hplace : (place_limit_order s ticker "BUY" q limit (some p)
      now days).2
      = { s with cash_balance := s.cash_balance - limit * (q : ℚ),
                 orders := s.orders
                     ++ [placedOrder s ticker "BUY" q limit now days],
                 nextOrderId := s.nextOrderId + 1 } := by
    simp [place_limit_order, hp, hcash, placedOrder]
  have hnone : List.find? (fun o => decide (o.id = s.nextOrderId)) s.orders
      = none := by
    rw [List.find?_eq_none]
    intro x hx
    simpa using hfresh x hx
  refine ⟨by rw [hplace], ?_⟩
  rw [hplace]
  simp [cancel_limit_order, hnone, placedOrder]
  try ring

/-- C2 (failing run): with only valid requests — BUY 5, place a SELL limit
for all 5 held shares, market-SELL 3, then sweep with the limit met — the
limit-order fill path applies the decrease without any share check and
drives the position quantity to -3, violating share non-negativity.  The
market SELL path does validate (`Insufficient shares`), but
`execute_limit_order` has no such check. -/
theorem C2_limit_fill_negative_quantity :
    ((findPosition (runOps (freshLedger 1000)
        [Op.market "AAPL" "BUY" 5 (some 10),
         Op.placeLimit "AAPL" "SELL" 5 20 (some 10) 0 30,
         Op.market "AAPL" "SELL" 3 (some 10),
         Op.fillSweep 0 (fun t => if t = "AAPL" then some 25 else none)])
        "AAPL").map Position.quantity) = some (-3) := by
  simp [runOps, applyOp, execute_market_order, place_limit_order,
    process_limit_orders, freshLedger, findPosition, setPosition,
    deletePosition, upsert, appendTx, Transact.saved]
  norm_num [processOneOrder, execute_limit_order, markFilled, setPosition,
    deletePosition, upsert, appendTx, Transact.saved, findPosition]
  simp

/-- C6 (failing run): the first expiry sweep behaves as claimed — the OPEN
BUY limit order past expiration becomes EXPIRED, its full 500 reservation
is refunded (cash returns to 500) and no Transaction is created — but the
refund loop filters on `status=EXPIRED, side=BUY` alone, so a second sweep
in which nothing new expires refunds the same reservation again, leaving
cash at 1000 instead of 500. -/
theorem C6_expiry_refund_repeats :
    (runOps (freshLedger 500)
        [Op.placeLimit "AAPL" "BUY" 10 50 (some 45) 0 10,
         Op.expireSweep 10]).cash_balance = 500 ∧
    (runOps (freshLedger 500)
        [Op.placeLimit "AAPL" "BUY" 10 50 (some 45) 0 10,
         Op.expireSweep 10]).transactions = [] ∧
    ((runOps (freshLedger 500)
        [Op.placeLimit "AAPL" "BUY" 10 50 (some 45) 0 10,
         Op.expireSweep 10]).orders.map Order.status) = [OrdStatus.expired] ∧
    (runOps (freshLedger 500)
        [Op.placeLimit "AAPL" "BUY" 10 50 (some 45) 0 10,
         Op.expireSweep 10, Op.expireSweep 10]).cash_balance = 1000 := by
  refine ⟨?_, ?_, ?_, ?_⟩ <;>
    · simp [runOps, applyOp, place_limit_order, expire_old_orders,
        freshLedger, List.foldl, List.filter, List.map]
      norm_num

/-! ### Witnesses: each general theorem applied at concrete inputs -/

/-- Witness for C1: the three parts instantiated at concrete inputs. -/
theorem C1_solvency_invariant_witness :
    0 ≤ (runOps (freshLedger 10000)
        [Op.market "AAPL" "BUY" 10 (some 100)]).cash_balance ∧
    (execute_market_order (freshLedger 100) "AAPL" "BUY" 10
        (some 50)).1.success = false ∧
    (place_limit_order (freshLedger 100) "AAPL" "BUY" 10 50 (some 50)
        0 30).2 = freshLedger 100 := by
  refine ⟨?_, ?_, ?_⟩
  · refine C1_solvency_invariant.1 10000 (by norm_num)
      [Op.market "AAPL" "BUY" 10 (some 100)] ?_
    intro op hop
    rcases List.mem_singleton.mp hop with rfl
    refine ⟨by norm_num, ?_⟩
    intro p hp
    cases hp
    norm_num
  · exact (C1_solvency_invariant.2.1 (freshLedger 100) "AAPL" 10 50
      (by norm_num) (by norm_num [freshLedger])).1
  · exact (C1_solvency_invariant.2.2 (freshLedger 100) "AAPL" 10 50 50 0 30
      (by norm_num) (by norm_num [freshLedger])).2

/-- Witness for C3 (amended): a concrete successful BUY appends one
record. -/
theorem C3_transaction_audit_witness :
    ∃ t, (execute_market_order (freshLedger 1000) "AAPL" "BUY" 5
          (some 10)).2.transactions
        = (freshLedger 1000).transactions ++ [t] ∧
      ((execute_market_order (freshLedger 1000) "AAPL" "BUY" 5
          (some 10)).1.success = true → t.status = TxStatus.executed) ∧
      ((execute_market_order (freshLedger 1000) "AAPL" "BUY" 5
          (some 10)).1.success = false → t.status = TxStatus.failed ∧
        ¬ t.notes = none) :=
  (C3_transaction_audit (freshLedger 1000) "AAPL" "BUY" 5).2.2 10
    (by norm_num)

/-- Witness for C4: buying 10 more shares at 200 on a 10-share position at
average cost 100 yields quantity 20 and average cost 150. -/
theorem C4_weighted_average_cost_witness :
    ∃ pos', findPosition (execute_market_order (ledgerWithPos 9000 posA10)
          "AAPL" "BUY" 10 (some 200)).2 "AAPL" = some pos' ∧
      pos'.quantity = 20 ∧ pos'.average_buy_price = 150 := by
  obtain ⟨pos', h1, h2, h3⟩ := C4_weighted_average_cost.1
    (ledgerWithPos 9000 posA10) "AAPL" 10 200 posA10
    (by simp [ledgerWithPos, posA10, findPosition])
    (by norm_num [posA10]) (by norm_num)
    (by norm_num [ledgerWithPos])
  refine ⟨pos', h1, ?_, ?_⟩
  · rw [h2]
    norm_num [posA10]
  · rw [h3]
    norm_num [posA10]

/-- Witness for C5: a zero-quantity buy request is rejected unchanged. -/
theorem C5_zero_quantity_rejected_witness :
    (trade_endpoint (freshLedger 1000) "AAPL" "BUY" 0 (some 10)).1.success
        = false ∧
    (trade_endpoint (freshLedger 1000) "AAPL" "BUY" 0 (some 10)).2
        = freshLedger 1000 :=
  ⟨(C5_zero_quantity_rejected (freshLedger 1000) "AAPL" "BUY" 0 (some 10)
      (by norm_num)).1,
   (C5_zero_quantity_rejected (freshLedger 1000) "AAPL" "BUY" 0 (some 10)
      (by norm_num)).2.2⟩

/-- Witness for C7: the OPEN BUY limit 10 at 50 filled at 45 succeeds and
credits a 50 refund. -/
theorem C7_buy_limit_fill_refund_witness :
    (execute_limit_order (freshLedger 0) orderC7 45).1.success = true ∧
    (execute_limit_order (freshLedger 0) orderC7 45).2.cash_balance = 50 := by
  have h := C7_buy_limit_fill_refund.1 (freshLedger 0) orderC7 45 rfl
    (by norm_num [orderC7]) (by norm_num [orderC7])
    (by intro pos hp; simp [freshLedger, findPosition] at hp)
  refine ⟨h.1, ?_⟩
  rw [h.2.1]
  norm_num [freshLedger, orderC7]

/-- Witness for C8: placing BUY limit 10 at 50 from a 1000 balance reserves
500 and cancelling restores 1000. -/
theorem C8_reservation_round_trip_witness :
    (place_limit_order (freshLedger 1000) "AAPL" "BUY" 10 50 (some 45)
        0 30).2.cash_balance = 500 ∧
    (cancel_limit_order (place_limit_order (freshLedger 1000) "AAPL" "BUY"
        10 50 (some 45) 0 30).2 0).2.cash_balance = 1000 := by
  have h := C8_reservation_round_trip (freshLedger 1000) "AAPL" 10 50 45 0 30
    (by norm_num) (by norm_num [freshLedger])
    (by intro o ho; simp [freshLedger] at ho)
  constructor
  · rw [h.1]
    norm_num [freshLedger]
  · have h2 := h.2
    simpa [freshLedger] using h2

/-- Witness for C9: selling 3 of 10 held shares keeps the average cost at
100 and leaves 7 shares. -/
theorem C9_sell_preserves_cost_basis_witness :
    ∃ pos', findPosition (execute_market_order (ledgerWithPos 0 posA10)
          "AAPL" "SELL" 3 (some 120)).2 "AAPL" = some pos' ∧
      pos'.average_buy_price = 100 ∧ pos'.quantity = 7 := by
  obtain ⟨hsucc, hpart, hfull⟩ := C9_sell_preserves_cost_basis
    (ledgerWithPos 0 posA10) "AAPL" 3 120 posA10
    (by simp [ledgerWithPos, posA10, findPosition]) (by norm_num)
    (by norm_num [posA10])
  obtain ⟨pos', h1, h2, h3, h4, h5⟩ := hpart (by norm_num [posA10])
  refine ⟨pos', h1, ?_, ?_⟩
  · rw [h2]
    norm_num [posA10]
  · rw [h3]
    norm_num [posA10]

/-- Witness for C10: a "HOLD" order succeeds and leaves cash unchanged. -/
theorem C10_unknown_side_executes_witness :
    (execute_market_order (freshLedger 1000) "AAPL" "HOLD" 5
        (some 10)).1.success = true ∧
    (execute_market_order (freshLedger 1000) "AAPL" "HOLD" 5
        (some 10)).2.cash_balance = (freshLedger 1000).cash_balance := by
  have h := C10_unknown_side_executes (freshLedger 1000) "AAPL" "HOLD" 5 10
    (by decide) (by decide) (by norm_num)
  exact ⟨h.1, h.2.1⟩

end PsyStock
